import Mathlib

/-!
Shallow embedding of the nta-backend note-taking service (main.go and
schema.sql).  Machine time is modelled as a natural number, the SQLite
store as lists of rows together with the AUTOINCREMENT counters, and each
HTTP handler as a pure function from the decoded request to a result:
status code, optional payload, optional error message and the new store.

JSON decoding is modelled by an `Option` argument: `none` is a body that
fails to decode, `some v` is the decoded Go struct (whose fields default
to Go zero values, i.e. `0` / `""`, when absent from the JSON).
-/

namespace Nta

/-- Go struct Note (main.go lines 17-24), also the shape of a `notes` row. -/
structure Note where
  id : Nat
  title : String
  content : String
  createdAt : Nat
  lastModified : Nat
deriving DecidableEq

/-- Go struct Line (main.go lines 26-32), also the shape of a `lines` row. -/
structure Line where
  id : Nat
  noteId : Nat
  content : String
  timestamp : Nat
deriving DecidableEq

/-- State of the SQLite database: the two tables in insertion order plus
their AUTOINCREMENT counters (SQLite assigns row ids 1, 2, ...). -/
structure Store where
  notes : List Note
  lines : List Line
  nextNoteId : Nat
  nextLineId : Nat
deriving DecidableEq

/-- State of a freshly created, empty database. -/
def Store.empty : Store := ⟨[], [], 1, 1⟩

/-- Go function parseInt (main.go lines 370-375): scanning with fmt.Sscanf
leaves the result at 0 when no integer can be read.  The router only passes
strings matching the pattern [0-9]+, on which this model agrees with Go:
such a string is read as its decimal value. -/
def parseInt (s : String) : Nat :=
  if s.data ≠ [] ∧ s.data.all (fun c => c.isDigit) then
    s.data.foldl (fun n c => n * 10 + (c.toNat - 48)) 0
  else 0

/-- ASCII lower-casing exactly as SQLite's default LIKE applies it: only
the letters A-Z fold, all other characters are left alone. -/
def lowerAscii (c : Char) : Char :=
  if 'A' ≤ c ∧ c ≤ 'Z' then Char.ofNat (c.toNat + 32) else c

/-- SQLite LIKE pattern matching (no ESCAPE clause, default settings): the
percent wildcard matches any sequence, the underscore wildcard matches any
single character, and every other character matches itself up to ASCII
case folding. -/
def likeMatch : List Char → List Char → Bool
  | [], s => s.isEmpty
  | c :: p, s =>
    if c = '%' then s.tails.any (fun t => likeMatch p t)
    else if c = '_' then
      match s with
      | [] => false
      | _ :: t => likeMatch p t
    else
      match s with
      | [] => false
      | d :: t => (lowerAscii c == lowerAscii d) && likeMatch p t

/-- Case-sensitive substring containment: the specification's notion of
"contains the term as a substring", written from the spec's words for
comparison with the LIKE-based behaviour of the code. -/
def strContains (hay needle : String) : Bool :=
  hay.data.tails.any (fun t => needle.data.isPrefixOf t)

/-- Substring containment up to ASCII case: what SQLite LIKE with pattern
%term% computes when the term itself holds no wildcard. -/
def strContainsCI (hay needle : String) : Bool :=
  (hay.data.map lowerAscii).tails.any (fun t => (needle.data.map lowerAscii).isPrefixOf t)

/-- Row order produced by ORDER BY last_modified DESC. -/
def byLastModifiedDesc (a b : Note) : Prop := b.lastModified ≤ a.lastModified

/-- Row order produced by ORDER BY created_at DESC. -/
def byCreatedAtDesc (a b : Note) : Prop := b.createdAt ≤ a.createdAt

/-- Row order produced by ORDER BY timestamp ASC on lines. -/
def byTimestampAsc (a b : Line) : Prop := a.timestamp ≤ b.timestamp

instance : DecidableRel byLastModifiedDesc := fun _ _ => Nat.decLe _ _

instance : DecidableRel byCreatedAtDesc := fun _ _ => Nat.decLe _ _

instance : DecidableRel byTimestampAsc := fun _ _ => Nat.decLe _ _

instance : IsTotal Note byLastModifiedDesc := ⟨fun _ _ => Nat.le_total _ _⟩

instance : IsTotal Note byCreatedAtDesc := ⟨fun _ _ => Nat.le_total _ _⟩

instance : IsTotal Line byTimestampAsc := ⟨fun _ _ => Nat.le_total _ _⟩

instance : IsTrans Note byLastModifiedDesc := ⟨fun _ _ _ h1 h2 => Nat.le_trans h2 h1⟩

instance : IsTrans Note byCreatedAtDesc := ⟨fun _ _ _ h1 h2 => Nat.le_trans h2 h1⟩

instance : IsTrans Line byTimestampAsc := ⟨fun _ _ _ h1 h2 => Nat.le_trans h1 h2⟩

/-- Result of a handler whose success payload is a single note. -/
structure NoteResult where
  status : Nat
  note : Option Note
  err : Option String
  store : Store

/-- Result of a handler whose success payload is a single line. -/
structure LineResult where
  status : Nat
  line : Option Line
  err : Option String
  store : Store

/-- Result of a read-only handler returning a collection of notes. -/
structure NotesResult where
  status : Nat
  notes : Option (List Note)
  err : Option String

/-- Result of the read-only lines listing handler. -/
structure LinesResult where
  status : Nat
  lines : List Line

/-- Result of the delete handler. -/
structure DeleteResult where
  status : Nat
  msg : Option String
  store : Store

/-- Handler getAllNotes (main.go lines 125-157): every value of the sort
parameter other than "creation_date", including the empty default, orders
by last_modified; both orders are descending.  The SQL ORDER BY is refined
here by insertion sort, one concrete order consistent with it. -/
def getAllNotes (sortBy : String) (s : Store) : NotesResult :=
  let sortKey := if sortBy = "" then "last_modified" else sortBy
  if sortKey = "creation_date" then
    ⟨200, some (List.insertionSort byCreatedAtDesc s.notes), none⟩
  else
    ⟨200, some (List.insertionSort byLastModifiedDesc s.notes), none⟩

/-- Handler getNote (main.go lines 160-177): SELECT ... WHERE id = ?,
404 when no row matches.  The SELECT leaves the store untouched. -/
def getNote (idStr : String) (s : Store) : NoteResult :=
  match s.notes.find? (fun n => n.id == parseInt idStr) with
  | none => ⟨404, none, some "Note not found", s⟩
  | some n => ⟨200, some n, none, s⟩

/-- Handler createNote (main.go lines 180-214): decode, stamp created_at
and last_modified with the current time, default an empty title, INSERT
(which assigns the AUTOINCREMENT id), respond 201 with the note. -/
def createNote (now : Nat) (decoded : Option Note) (s : Store) : NoteResult :=
  match decoded with
  | none => ⟨400, none, some "Invalid request payload", s⟩
  | some note0 =>
    let note1 : Note := { note0 with createdAt := now, lastModified := now }
    let note2 : Note := if note1.title = "" then { note1 with title := "Untitled Diary" } else note1
    let note3 : Note := { note2 with id := s.nextNoteId }
    ⟨201, some note3, none,
      { s with notes := s.notes ++ [note3], nextNoteId := s.nextNoteId + 1 }⟩

/-- Handler updateNote (main.go lines 217-241): decode, stamp
last_modified, UPDATE title, content and last_modified of every row whose
id matches the path id (created_at is not touched in the store), respond
200 with the decoded note carrying the parsed path id — whether or not any
row matched. -/
def updateNote (now : Nat) (idStr : String) (decoded : Option Note) (s : Store) : NoteResult :=
  match decoded with
  | none => ⟨400, none, some "Invalid request payload", s⟩
  | some note0 =>
    let note1 : Note := { note0 with lastModified := now }
    let notes :=
      s.notes.map (fun n =>
        if n.id = parseInt idStr then
          { n with title := note1.title, content := note1.content,
                   lastModified := note1.lastModified }
        else n)
    ⟨200, some { note1 with id := parseInt idStr }, none, { s with notes := notes }⟩

/-- Handler deleteNote (main.go lines 244-256): DELETE FROM notes WHERE
id = ?.  The connection never enables PRAGMA foreign_keys (the DSN is a
bare file path and SQLite defaults the pragma to OFF), so the ON DELETE
CASCADE clause declared for the lines table is inert at runtime: only the
notes row disappears and the note's lines stay behind. -/
def deleteNote (idStr : String) (s : Store) : DeleteResult :=
  ⟨200, some "Note deleted successfully",
    { s with notes := s.notes.filter (fun n => n.id != parseInt idStr) }⟩

/-- Cascade semantics of the same DELETE as declared by the schema's ON
DELETE CASCADE clause — what the DDL promises, kept for comparison with
the runtime behaviour of `deleteNote`. -/
def deleteNoteCascade (idStr : String) (s : Store) : DeleteResult :=
  ⟨200, some "Note deleted successfully",
    { s with notes := s.notes.filter (fun n => n.id != parseInt idStr),
             lines := s.lines.filter (fun l => l.noteId != parseInt idStr) }⟩

/-- Handler getLines (main.go lines 259-282): SELECT ... WHERE note_id = ?
ORDER BY timestamp ASC. -/
def getLines (idStr : String) (s : Store) : LinesResult :=
  ⟨200, List.insertionSort byTimestampAsc
    (s.lines.filter (fun l => l.noteId == parseInt idStr))⟩

/-- Handler addLine (main.go lines 285-324): decode, stamp the timestamp
with the current time and the note_id with the parsed path id, INSERT the
line (assigning its AUTOINCREMENT id), then UPDATE the parent note's
last_modified to the line's timestamp.  The INSERT succeeds even when no
note with that id exists, because foreign keys are not enforced (see
`deleteNote`); the UPDATE is then a no-op and the handler still
responds 201. -/
def addLine (now : Nat) (idStr : String) (decoded : Option Line) (s : Store) : LineResult :=
  match decoded with
  | none => ⟨400, none, some "Invalid request payload", s⟩
  | some line0 =>
    let line1 : Line := { line0 with timestamp := now, noteId := parseInt idStr }
    let line2 : Line := { line1 with id := s.nextLineId }
    let s1 : Store := { s with lines := s.lines ++ [line2], nextLineId := s.nextLineId + 1 }
    let notes :=
      s1.notes.map (fun n =>
        if n.id = parseInt idStr then { n with lastModified := line2.timestamp } else n)
    ⟨201, some line2, none, { s1 with notes := notes }⟩

/-- Handler searchNotes (main.go lines 327-353): an empty query responds
400; otherwise the term is wrapped in percent wildcards and matched with
LIKE against title and content, results ordered by last_modified DESC. -/
def searchNotes (q : String) (s : Store) : NotesResult :=
  if q = "" then ⟨400, none, some "Search query is required"⟩
  else
    let pat := ("%" ++ q ++ "%").data
    ⟨200, some (List.insertionSort byLastModifiedDesc
      (s.notes.filter (fun n => likeMatch pat n.title.data || likeMatch pat n.content.data))),
      none⟩

/-! Helper lemmas. -/

/-- In a table whose ids are pairwise distinct, a SELECT by an id present
in the table finds exactly that row. -/
theorem find?_id_eq_of_mem {l : List Note} {n : Note} {k : Nat}
    (hnd : (l.map Note.id).Nodup) (hmem : n ∈ l) (hid : n.id = k) :
    l.find? (fun m => m.id == k) = some n := by
  induction l with
  | nil => cases hmem
  | cons a t ih =>
    rw [List.map_cons, List.nodup_cons] at hnd
    rcases List.mem_cons.mp hmem with h | h
    · subst h
      exact List.find?_cons_of_pos t (by simp [hid])
    · have ha : ¬ ((fun m => m.id == k) a = true) := by
        simp only [beq_iff_eq]
        intro hak
        apply hnd.1
        rw [hak, ← hid]
        exact List.mem_map_of_mem Note.id h
      rw [List.find?_cons_of_neg t ha]
      exact ih hnd.2 h

/-- C2: a well-formed note creation responds 201 with the note written to
the store; that note carries created_at and last_modified both equal to
the current time, the non-empty defaulted title, and the store-assigned
AUTOINCREMENT id. -/
theorem createNote_contract (now : Nat) (body : Note) (s : Store) :
    (createNote now (some body) s).status = 201 ∧
    (createNote now (some body) s).note =
      some ⟨s.nextNoteId, if body.title = "" then "Untitled Diary" else body.title,
            body.content, now, now⟩ ∧
    (if body.title = "" then "Untitled Diary" else body.title) ≠ "" ∧
    (createNote now (some body) s).store.notes =
      s.notes ++ [⟨s.nextNoteId, if body.title = "" then "Untitled Diary" else body.title,
                   body.content, now, now⟩] := by
  by_cases h : body.title = "" <;>
    simp [createNote, h]

/-- C9: a body that fails JSON decoding makes each body-carrying handler
respond 400 with the descriptive message, leaving the store untouched. -/
theorem decode_failure_no_effect (now : Nat) (idStr : String) (s : Store) :
    (createNote now none s).status = 400 ∧
    (createNote now none s).err = some "Invalid request payload" ∧
    (createNote now none s).store = s ∧
    (updateNote now idStr none s).status = 400 ∧
    (updateNote now idStr none s).err = some "Invalid request payload" ∧
    (updateNote now idStr none s).store = s ∧
    (addLine now idStr none s).status = 400 ∧
    (addLine now idStr none s).err = some "Invalid request payload" ∧
    (addLine now idStr none s).store = s :=
  ⟨rfl, rfl, rfl, rfl, rfl, rfl, rfl, rfl, rfl⟩

/-- C10 (amended): the 200 response of updateNote is built from the decoded
body, never read back from the store: id is the parsed path id, title and
content are the body's, created_at is the body's decoded created_at field
(the Go zero value when the JSON omits it), last_modified is the server
time — and the response is identical for any two stores, in particular
whether or not a note with that id exists. -/
theorem updateNote_response_from_body (now : Nat) (idStr : String) (body : Note)
    (s s2 : Store) :
    (updateNote now idStr (some body) s).status = 200 ∧
    (updateNote now idStr (some body) s).note =
      some ⟨parseInt idStr, body.title, body.content, body.createdAt, now⟩ ∧
    (updateNote now idStr (some body) s).note = (updateNote now idStr (some body) s2).note ∧
    (updateNote now idStr (some body) s).status = (updateNote now idStr (some body) s2).status :=
  ⟨rfl, rfl, rfl, rfl⟩

/-- Fixture for the C10 counterexample: a store holding note 3. -/
def stC10 : Store := ⟨[⟨3, "old", "oc", 2, 2⟩], [], 4, 1⟩

/-- C10 counterexample: a well-formed update body that carries a non-zero
created_at field flows into the 200 response, so the response's created_at
is 5, not the zero timestamp the claim states. -/
theorem updateNote_createdAt_not_zero :
    (updateNote 7 "3" (some ⟨0, "t", "c", 5, 0⟩) stC10).status = 200 ∧
    ((updateNote 7 "3" (some ⟨0, "t", "c", 5, 0⟩) stC10).note.map Note.createdAt) = some 5 ∧
    ((updateNote 7 "3" (some ⟨0, "t", "c", 5, 0⟩) stC10).note.map Note.createdAt) ≠ some 0 := by
  decide

/-- C5: a well-formed update responds 200 and overwrites title, content
and last_modified of exactly the rows whose id matches the parsed path id,
leaving lines untouched; when no note with that id exists the store is
completely unchanged, yet the response is still 200. -/
theorem updateNote_store_effect (now : Nat) (idStr : String) (body : Note) (s : Store) :
    (updateNote now idStr (some body) s).status = 200 ∧
    (updateNote now idStr (some body) s).store.notes =
      s.notes.map (fun n =>
        if n.id = parseInt idStr then
          { n with title := body.title, content := body.content, lastModified := now }
        else n) ∧
    (updateNote now idStr (some body) s).store.lines = s.lines ∧
    ((∀ n ∈ s.notes, n.id ≠ parseInt idStr) → (updateNote now idStr (some body) s).store = s) := by
  refine ⟨rfl, rfl, rfl, fun h => ?_⟩
  have heq : s.notes.map (fun n =>
      if n.id = parseInt idStr then
        { n with title := body.title, content := body.content, lastModified := now }
      else n) = s.notes := by
    conv_rhs => rw [← List.map_id' s.notes]
    apply List.map_congr_left
    intro a ha
    simp [h a ha]
  show Store.mk _ s.lines s.nextNoteId s.nextLineId = s
  rw [heq]

/-- Fixture for the C5 witness: a store with no note of id 1. -/
def stC5 : Store := ⟨[⟨2, "a", "b", 0, 0⟩], [], 3, 1⟩

/-- C5 witness: updating the missing id 1 leaves the concrete store
unchanged and still responds 200. -/
theorem updateNote_store_effect_witness :
    (updateNote 9 "1" (some ⟨0, "t", "c", 0, 0⟩) stC5).status = 200 ∧
    (updateNote 9 "1" (some ⟨0, "t", "c", 0, 0⟩) stC5).store = stC5 := by
  have h := updateNote_store_effect 9 "1" ⟨0, "t", "c", 0, 0⟩ stC5
  exact ⟨h.1, h.2.2.2 (by decide)⟩

/-- Shape of the notes table after a successful createNote. -/
theorem createNote_store_notes (now : Nat) (body : Note) (s : Store) :
    (createNote now (some body) s).store.notes =
      s.notes ++ [⟨s.nextNoteId, if body.title = "" then "Untitled Diary" else body.title,
                   body.content, now, now⟩] := by
  by_cases h : body.title = "" <;> simp [createNote, h]

/-- Shape of the notes table after a successful updateNote. -/
theorem updateNote_store_notes (now : Nat) (idStr : String) (body : Note) (s : Store) :
    (updateNote now idStr (some body) s).store.notes =
      s.notes.map (fun n =>
        if n.id = parseInt idStr then
          { n with title := body.title, content := body.content, lastModified := now }
        else n) := rfl

/-- Shape of the notes table after a successful addLine: only last_modified
of the matching parent is touched. -/
theorem addLine_store_notes (now : Nat) (idStr : String) (body : Line) (s : Store) :
    (addLine now idStr (some body) s).store.notes =
      s.notes.map (fun n =>
        if n.id = parseInt idStr then { n with lastModified := now } else n) := rfl

/-- Shape of the notes table after deleteNote. -/
theorem deleteNote_store_notes (idStr : String) (s : Store) :
    (deleteNote idStr s).store.notes =
      s.notes.filter (fun n => n.id != parseInt idStr) := rfl

/-- C1: appending a line to an existing note responds 201 with the stored
line, whose note_id is the parsed path id and whose timestamp is the
server-assigned current time; every note whose id matches — in particular
the parent — has its last_modified set to exactly that timestamp. -/
theorem addLine_contract (now : Nat) (idStr : String) (body : Line) (s : Store)
    (hex : ∃ n ∈ s.notes, n.id = parseInt idStr) :
    (addLine now idStr (some body) s).status = 201 ∧
    (addLine now idStr (some body) s).line =
      some ⟨s.nextLineId, parseInt idStr, body.content, now⟩ ∧
    (⟨s.nextLineId, parseInt idStr, body.content, now⟩ : Line) ∈
      (addLine now idStr (some body) s).store.lines ∧
    (∀ n ∈ (addLine now idStr (some body) s).store.notes,
      n.id = parseInt idStr → n.lastModified = now) ∧
    (∃ n ∈ (addLine now idStr (some body) s).store.notes,
      n.id = parseInt idStr ∧ n.lastModified = now) := by
  refine ⟨rfl, rfl, ?_, ?_, ?_⟩
  · simp [addLine]
  · intro n hn hid
    rw [addLine_store_notes] at hn
    rcases List.mem_map.mp hn with ⟨m, hm, rfl⟩
    by_cases hmid : m.id = parseInt idStr
    · rw [if_pos hmid]
    · rw [if_neg hmid] at hid ⊢
      exact absurd hid hmid
  · rcases hex with ⟨m, hmem, hid⟩
    refine ⟨{ m with lastModified := now }, ?_, hid, rfl⟩
    rw [addLine_store_notes]
    have hmap := List.mem_map_of_mem
      (fun n => if n.id = parseInt idStr then { n with lastModified := now } else n) hmem
    simpa [hid] using hmap

/-- Fixture for the C1 witness: a store holding note 1, next line id 5. -/
def stC1 : Store := ⟨[⟨1, "a", "b", 0, 0⟩], [], 2, 5⟩

/-- C1 witness: appending a line to the concrete note 1. -/
theorem addLine_contract_witness :
    (addLine 9 "1" (some ⟨0, 0, "hi", 0⟩) stC1).status = 201 ∧
    (addLine 9 "1" (some ⟨0, 0, "hi", 0⟩) stC1).line = some ⟨5, 1, "hi", 9⟩ := by
  have h := addLine_contract 9 "1" ⟨0, 0, "hi", 0⟩ stC1
    ⟨⟨1, "a", "b", 0, 0⟩, by decide, by decide⟩
  refine ⟨h.1, ?_⟩
  rw [h.2.1]
  decide

/-- C8: listing notes with sort=creation_date returns all notes ordered
descending by created_at, and with the empty (missing) sort parameter all
notes ordered descending by last_modified; both respond 200. -/
theorem getAllNotes_contract (s : Store) :
    (getAllNotes "creation_date" s).status = 200 ∧
    (∃ l, (getAllNotes "creation_date" s).notes = some l ∧
      List.Perm l s.notes ∧ List.Sorted byCreatedAtDesc l) ∧
    (getAllNotes "" s).status = 200 ∧
    (∃ l, (getAllNotes "" s).notes = some l ∧
      List.Perm l s.notes ∧ List.Sorted byLastModifiedDesc l) := by
  refine ⟨rfl,
    ⟨List.insertionSort byCreatedAtDesc s.notes, rfl,
      List.perm_insertionSort _ _, List.sorted_insertionSort _ _⟩,
    rfl,
    ⟨List.insertionSort byLastModifiedDesc s.notes, rfl,
      List.perm_insertionSort _ _, List.sorted_insertionSort _ _⟩⟩

/-- C6: a read of a single note leaves the store unchanged, responds 404
exactly when no note with the parsed path id exists, and otherwise
responds 200 carrying precisely the stored note (ids are assumed pairwise
distinct, as AUTOINCREMENT guarantees). -/
theorem getNote_contract (idStr : String) (s : Store)
    (hnd : (s.notes.map Note.id).Nodup) :
    ((getNote idStr s).status = 404 ↔ ∀ n ∈ s.notes, n.id ≠ parseInt idStr) ∧
    (∀ n ∈ s.notes, n.id = parseInt idStr →
      (getNote idStr s).status = 200 ∧ (getNote idStr s).note = some n) ∧
    (getNote idStr s).store = s := by
  rcases hfind : s.notes.find? (fun n => n.id == parseInt idStr) with _ | n
  · have hnone := List.find?_eq_none.mp hfind
    have hg : getNote idStr s = ⟨404, none, some "Note not found", s⟩ := by
      unfold getNote; rw [hfind]
    refine ⟨?_, ?_, by rw [hg]⟩
    · rw [hg]
      constructor
      · intro _ n hn
        have := hnone n hn
        simpa using this
      · intro _
        rfl
    · intro n hn hid
      have := hnone n hn
      simp only [beq_iff_eq] at this
      exact absurd hid this
  · have hg : getNote idStr s = ⟨200, some n, none, s⟩ := by
      unfold getNote; rw [hfind]
    have hmem := List.mem_of_find?_eq_some hfind
    have hp : n.id = parseInt idStr := by
      have := List.find?_some hfind
      simpa using this
    refine ⟨?_, ?_, by rw [hg]⟩
    · rw [hg]
      constructor
      · intro h
        cases h
      · intro hall
        exact absurd hp (hall n hmem)
    · intro m hm hid
      have hfm := find?_id_eq_of_mem hnd hm hid
      rw [hfind] at hfm
      injection hfm with hnm
      subst hnm
      exact ⟨by rw [hg], by rw [hg]⟩

/-- Fixture for the C6 witness: a store holding exactly note 1. -/
def stC6 : Store := ⟨[⟨1, "a", "b", 0, 0⟩], [], 2, 1⟩

/-- C6 witness: reading note 1 from the concrete store responds 200 with
that note. -/
theorem getNote_contract_witness :
    (getNote "1" stC6).status = 200 ∧ (getNote "1" stC6).note = some ⟨1, "a", "b", 0, 0⟩ := by
  have h := getNote_contract "1" stC6 (by decide)
  exact h.2.1 ⟨1, "a", "b", 0, 0⟩ (by decide) (by decide)

/-- Matching against a leading percent wildcard tries every suffix. -/
theorem likeMatch_percent (p s : List Char) :
    likeMatch ('%' :: p) s = s.tails.any (fun t => likeMatch p t) := by
  simp [likeMatch]

/-- The empty list is always among the tails, so the empty-string test
succeeds somewhere. -/
theorem tails_any_isEmpty (s : List Char) : s.tails.any (fun t => t.isEmpty) = true := by
  induction s with
  | nil => rfl
  | cons a t ih => simp [List.tails, ih]

/-- A wildcard-free pattern followed by a single percent matches exactly
the strings it ASCII-case-insensitively prefixes. -/
theorem likeMatch_plain_percent (p : List Char) (hw : ∀ c ∈ p, c ≠ '%' ∧ c ≠ '_') :
    ∀ s : List Char,
      likeMatch (p ++ ['%']) s = (p.map lowerAscii).isPrefixOf (s.map lowerAscii) := by
  induction p with
  | nil =>
    intro s
    have h1 : likeMatch ([] ++ ['%']) s = s.tails.any (fun t => likeMatch [] t) :=
      likeMatch_percent [] s
    have h2 : (fun t : List Char => likeMatch [] t) = (fun t : List Char => t.isEmpty) := rfl
    rw [h1, h2, tails_any_isEmpty]
    simp
  | cons c p ih =>
    intro s
    have hc := hw c (List.mem_cons_self c p)
    have ih' := ih (fun x hx => hw x (List.mem_cons_of_mem c hx))
    cases s with
    | nil => simp [likeMatch, hc.1, hc.2, List.isPrefixOf]
    | cons d t => simp [likeMatch, hc.1, hc.2, List.isPrefixOf, ih' t]

/-- Tails commute with map. -/
theorem tails_map {α β : Type} (f : α → β) (l : List α) :
    (l.map f).tails = l.tails.map (List.map f) := by
  induction l with
  | nil => rfl
  | cons a t ih => simp [List.tails, ih]

/-- Bridge: for a wildcard-free term, LIKE with pattern %term% is exactly
ASCII-case-insensitive substring containment. -/
theorem likeMatch_wildcard_free (q s : String) (hw : ∀ c ∈ q.data, c ≠ '%' ∧ c ≠ '_') :
    likeMatch (("%" ++ q ++ "%").data) s.data = strContainsCI s q := by
  have hpat : ("%" ++ q ++ "%").data = '%' :: (q.data ++ ['%']) := by
    simp
  rw [hpat, likeMatch_percent]
  have hfun : (fun t => likeMatch (q.data ++ ['%']) t) =
      (fun t : List Char => (q.data.map lowerAscii).isPrefixOf (t.map lowerAscii)) :=
    funext (likeMatch_plain_percent q.data hw)
  rw [hfun, strContainsCI, tails_map, List.any_map]
  rfl

/-- C4 (amended): searching with an empty term responds 400 with the
message and no list at all; searching with a non-empty wildcard-free term
responds 200 with exactly the notes whose title or content contains the
term as a substring up to ASCII case (the comparison SQLite LIKE applies),
ordered descending by last_modified. -/
theorem searchNotes_contract (q : String) (s : Store) :
    (q = "" → (searchNotes q s).status = 400 ∧ (searchNotes q s).notes = none ∧
      (searchNotes q s).err = some "Search query is required") ∧
    (q ≠ "" → (∀ c ∈ q.data, c ≠ '%' ∧ c ≠ '_') →
      (searchNotes q s).status = 200 ∧
      ∃ l, (searchNotes q s).notes = some l ∧
        List.Perm l (s.notes.filter
          (fun n => strContainsCI n.title q || strContainsCI n.content q)) ∧
        List.Sorted byLastModifiedDesc l) := by
  constructor
  · intro hq
    subst hq
    exact ⟨rfl, rfl, rfl⟩
  · intro hq hw
    have hres : searchNotes q s = ⟨200, some (List.insertionSort byLastModifiedDesc
        (s.notes.filter (fun n => likeMatch (("%" ++ q ++ "%").data) n.title.data
          || likeMatch (("%" ++ q ++ "%").data) n.content.data))), none⟩ := by
      simp [searchNotes, hq]
    have hfilter : s.notes.filter (fun n => likeMatch (("%" ++ q ++ "%").data) n.title.data
          || likeMatch (("%" ++ q ++ "%").data) n.content.data) =
        s.notes.filter (fun n => strContainsCI n.title q || strContainsCI n.content q) := by
      apply List.filter_congr
      intro a _
      rw [likeMatch_wildcard_free q a.title hw, likeMatch_wildcard_free q a.content hw]
    rw [hres]
    exact ⟨rfl, _, rfl, hfilter ▸ List.perm_insertionSort _ _,
      List.sorted_insertionSort _ _⟩

/-- Fixture for the C4 counterexample: one note titled ABC. -/
def noteABC : Note := ⟨1, "ABC", "", 0, 0⟩

/-- Fixture store for the C4 counterexample and witness. -/
def stC4 : Store := ⟨[noteABC], [], 2, 1⟩

/-- C4 counterexample: searching for the lower-case term abc returns the
note titled ABC, although neither its title nor its content contains abc
as a substring — SQLite LIKE folds ASCII case, so the result set is not
"exactly the notes containing the term as a substring". -/
theorem searchNotes_substring_counterexample :
    (searchNotes "abc" stC4).status = 200 ∧
    (searchNotes "abc" stC4).notes = some [noteABC] ∧
    strContains noteABC.title "abc" = false ∧
    strContains noteABC.content "abc" = false := by
  decide

/-- C4 witness: the empty term is rejected with 400 and a concrete
wildcard-free search responds 200. -/
theorem searchNotes_contract_witness :
    (searchNotes "" stC4).status = 400 ∧ (searchNotes "b" stC4).status = 200 := by
  have h1 := (searchNotes_contract "" stC4).1 rfl
  have h2 := (searchNotes_contract "b" stC4).2 (by decide) (by decide)
  exact ⟨h1.1, h2.1⟩

/-- Store states reachable from the empty database through successful
handler calls, under a monotonic clock: `Reachable t s` means `s` arises
from some sequence of requests whose server times never exceed `t`. -/
inductive Reachable : Nat → Store → Prop
  | init : Reachable 0 Store.empty
  | create (t now : Nat) (s : Store) (body : Note) :
      Reachable t s → t ≤ now → Reachable now (createNote now (some body) s).store
  | update (t now : Nat) (s : Store) (idStr : String) (body : Note) :
      Reachable t s → t ≤ now → Reachable now (updateNote now idStr (some body) s).store
  | addline (t now : Nat) (s : Store) (idStr : String) (body : Line) :
      Reachable t s → t ≤ now → Reachable now (addLine now idStr (some body) s).store
  | delete (t : Nat) (s : Store) (idStr : String) :
      Reachable t s → Reachable t (deleteNote idStr s).store

/-- In every reachable store, each note's created_at is bounded by its
last_modified, which is bounded by the clock. -/
theorem reachable_timestamps {t : Nat} {s : Store} (h : Reachable t s) :
    ∀ n ∈ s.notes, n.createdAt ≤ n.lastModified ∧ n.lastModified ≤ t := by
  induction h with
  | init =>
    intro n hn
    cases hn
  | create t now s body _ hle ih =>
    intro n hn
    rw [createNote_store_notes] at hn
    rcases List.mem_append.mp hn with hmem | hmem
    · exact ⟨(ih n hmem).1, Nat.le_trans (ih n hmem).2 hle⟩
    · rw [List.mem_singleton] at hmem
      subst hmem
      exact ⟨Nat.le_refl _, Nat.le_refl _⟩
  | update t now s idStr body _ hle ih =>
    intro n hn
    rw [updateNote_store_notes] at hn
    rcases List.mem_map.mp hn with ⟨m, hm, rfl⟩
    by_cases hid : m.id = parseInt idStr
    · rw [if_pos hid]
      exact ⟨Nat.le_trans (Nat.le_trans (ih m hm).1 (ih m hm).2) hle, Nat.le_refl _⟩
    · rw [if_neg hid]
      exact ⟨(ih m hm).1, Nat.le_trans (ih m hm).2 hle⟩
  | addline t now s idStr body _ hle ih =>
    intro n hn
    rw [addLine_store_notes] at hn
    rcases List.mem_map.mp hn with ⟨m, hm, rfl⟩
    by_cases hid : m.id = parseInt idStr
    · rw [if_pos hid]
      exact ⟨Nat.le_trans (Nat.le_trans (ih m hm).1 (ih m hm).2) hle, Nat.le_refl _⟩
    · rw [if_neg hid]
      exact ⟨(ih m hm).1, Nat.le_trans (ih m hm).2 hle⟩
  | delete t s idStr _ ih =>
    intro n hn
    rw [deleteNote_store_notes] at hn
    exact ih n (List.mem_of_mem_filter hn)

/-- C7: in every reachable store state every note satisfies
created_at less than or equal to last_modified — creation sets them equal
and every later mutation moves last_modified forward in clock time. -/
theorem note_timestamps_ordered {t : Nat} {s : Store} (h : Reachable t s) :
    ∀ n ∈ s.notes, n.createdAt ≤ n.lastModified :=
  fun n hn => (reachable_timestamps h n hn).1

/-- Fixture body for the C7 witness. -/
def bodyC7 : Note := ⟨0, "w", "c", 0, 0⟩

/-- C7 witness: the note created at time 10 in a store reached by one
creation satisfies the invariant. -/
theorem note_timestamps_ordered_witness :
    (⟨1, "w", "c", 10, 10⟩ : Note).createdAt ≤ (⟨1, "w", "c", 10, 10⟩ : Note).lastModified :=
  note_timestamps_ordered
    (Reachable.create 0 10 Store.empty bodyC7 Reachable.init (Nat.zero_le 10))
    ⟨1, "w", "c", 10, 10⟩ (by decide)

/-- Mapping a table through an id-preserving row update leaves the id
column unchanged. -/
theorem map_note_id_map_of_preserve {f : Note → Note} (hf : ∀ n, (f n).id = n.id)
    (l : List Note) : (l.map f).map Note.id = l.map Note.id := by
  rw [List.map_map]
  apply List.map_congr_left
  intro a _
  exact hf a

/-- In every reachable store the note ids are pairwise distinct and lie
below the AUTOINCREMENT counter — the uniqueness assumed for single-note
reads holds in every reachable state. -/
theorem reachable_ids_nodup {t : Nat} {s : Store} (h : Reachable t s) :
    (s.notes.map Note.id).Nodup ∧ ∀ n ∈ s.notes, n.id < s.nextNoteId := by
  induction h with
  | init =>
    refine ⟨List.nodup_nil, ?_⟩
    intro n hn
    cases hn
  | create t now s body _ _ ih =>
    have hnext : (createNote now (some body) s).store.nextNoteId = s.nextNoteId + 1 := rfl
    constructor
    · rw [createNote_store_notes, List.map_append]
      rw [List.nodup_append]
      refine ⟨ih.1, List.nodup_singleton _, ?_⟩
      intro a ha hb
      rcases List.mem_map.mp ha with ⟨m, hm, rfl⟩
      have hlt := ih.2 m hm
      have : m.id = s.nextNoteId := by simpa using hb
      omega
    · intro n hn
      rw [createNote_store_notes] at hn
      rw [hnext]
      rcases List.mem_append.mp hn with hmem | hmem
      · exact Nat.lt_succ_of_lt (ih.2 n hmem)
      · rw [List.mem_singleton] at hmem
        subst hmem
        exact Nat.lt_succ_self _
  | update t now s idStr body _ _ ih =>
    have hid : ∀ n : Note, ((fun n : Note =>
        if n.id = parseInt idStr then
          { n with title := body.title, content := body.content, lastModified := now }
        else n) n).id = n.id := by
      intro n
      by_cases h : n.id = parseInt idStr <;> simp [h]
    constructor
    · rw [updateNote_store_notes, map_note_id_map_of_preserve hid]
      exact ih.1
    · intro n hn
      rw [updateNote_store_notes] at hn
      rcases List.mem_map.mp hn with ⟨m, hm, rfl⟩
      have := ih.2 m hm
      rw [hid m]
      exact this
  | addline t now s idStr body _ _ ih =>
    have hid : ∀ n : Note, ((fun n : Note =>
        if n.id = parseInt idStr then { n with lastModified := now } else n) n).id = n.id := by
      intro n
      by_cases h : n.id = parseInt idStr <;> simp [h]
    constructor
    · rw [addLine_store_notes, map_note_id_map_of_preserve hid]
      exact ih.1
    · intro n hn
      rw [addLine_store_notes] at hn
      rcases List.mem_map.mp hn with ⟨m, hm, rfl⟩
      have := ih.2 m hm
      rw [hid m]
      exact this
  | delete t s idStr _ ih =>
    constructor
    · rw [deleteNote_store_notes]
      exact ih.1.sublist (List.Sublist.map Note.id (List.filter_sublist _))
    · intro n hn
      rw [deleteNote_store_notes] at hn
      exact ih.2 n (List.mem_of_mem_filter hn)

/-- Fixture note body for the C3 failing run. -/
def bodyC3 : Note := ⟨0, "X", "Y", 0, 0⟩

/-- Fixture line body for the C3 failing run. -/
def lineC3 : Line := ⟨0, 0, "hi", 0⟩

/-- Store after the C3 failing run: create note 1 at time 10, append a
line to it at time 20, then delete the note. -/
def stC3 : Store :=
  (deleteNote "1" (addLine 20 "1" (some lineC3)
    (createNote 10 (some bodyC3) Store.empty).store).store).store

/-- C3 failing run, evaluated: at runtime the delete does not cascade
(PRAGMA foreign_keys is never enabled on the connection), so afterwards
the store holds a line whose note_id references no existing note and
listing the deleted note's lines still returns it; under the cascade
semantics declared by the schema the listing would be empty.  Moreover
appending to a nonexistent note id succeeds with 201 and stores an
orphan line, since the foreign key is likewise unenforced. -/
theorem deleteNote_no_cascade :
    (getLines "1" stC3).lines = [⟨1, 1, "hi", 20⟩] ∧
    stC3.notes.all (fun n => n.id != 1) = true ∧
    stC3.lines.any (fun l => l.noteId == 1) = true ∧
    (getLines "1" ((deleteNoteCascade "1" (addLine 20 "1" (some lineC3)
      (createNote 10 (some bodyC3) Store.empty).store).store).store)).lines = [] ∧
    (addLine 5 "7" (some lineC3) Store.empty).status = 201 ∧
    (addLine 5 "7" (some lineC3) Store.empty).store.lines = [⟨1, 7, "hi", 5⟩] ∧
    (addLine 5 "7" (some lineC3) Store.empty).store.notes = [] := by
  decide

end Nta
